import Mathlib

/-!
Verification development for the Power BI ↔ ArcGIS cross-widget filter
synchronization engine.

The definitions below are a shallow embedding of the TypeScript source:
  * `src/config/filter-mapping.ts` — `FieldMapping`, `stripEmojiPrefix`,
    `FIELD_MAPPINGS`;
  * the shared filter context — `FilterEntry`, the store with
    snapshot-replace `setFilters` / `clearFilters`;
  * `ReportEmbedView.tsx` — `pushFilter`, `handleDataSelected`,
    `pollActiveFilters`, and the ArcGIS→Power BI applier effect;
  * the ArcGIS map component — `isVisualizationLayer`, `buildWhereClause`,
    the Power BI→ArcGIS applier effect (clear branch, phase-2 predicate
    loop, `zoomToFilteredArea`), and the click handler.

Scalar values flowing through the engine are JS `string | number`; they are
embedded as `Value`.  Widget calls are embedded as explicit command lists;
the widget-side state reached by executing those commands is an explicit
state record, so that idempotence and frame properties are statable.
-/

namespace FilterSync

/-- A JS scalar `string | number` as it flows through the filter engine. -/
inductive Value where
  | str : String → Value
  | num : Int → Value
deriving DecidableEq, Repr

/-- The single-quote character, written by code point to keep the file
quote-free. -/
def sqChar : Char := Char.ofNat 39

/-- A one-character string holding a single quote. -/
def sq : String := String.mk [sqChar]

/-- Model of the source expression that doubles every interior single
quote in the rendered value (a global replace over the string). -/
def escapeQuotes (s : String) : String :=
  String.mk (s.data.foldr
    (fun c acc => if c = sqChar then sqChar :: sqChar :: acc else c :: acc) [])

/-- Render a value as it appears inside an `IN (...)` list: numbers bare,
strings single-quoted with interior quotes doubled. -/
def renderInItem (v : Value) : String :=
  match v with
  | .num n => toString n
  | .str s => sq ++ escapeQuotes s ++ sq

/-- Render a single-value equality clause, `field = 3` or
`field = <quoted string>`, following the `typeof v === "number"` branch of
`buildWhereClause`. -/
def renderEqClause (field : String) (v : Value) : String :=
  match v with
  | .num n => field ++ " = " ++ toString n
  | .str s => field ++ " = " ++ sq ++ escapeQuotes s ++ sq

/-- Character class of the `stripEmojiPrefix` regex
`^[\p{Emoji_Presentation}\p{Extended_Pictographic}‍️]+`:
pictographic/emoji code points, the zero-width joiner and the variation
selector.  The pictographic blocks are embedded by their code-point
ranges. -/
def isEmojiLeadChar (c : Char) : Bool :=
  (decide (0x1F000 ≤ c.toNat) && decide (c.toNat ≤ 0x1FAFF)) ||
  (decide (0x2600 ≤ c.toNat) && decide (c.toNat ≤ 0x27BF)) ||
  (decide (0x2B00 ≤ c.toNat) && decide (c.toNat ≤ 0x2BFF)) ||
  decide (c.toNat = 0x200D) || decide (c.toNat = 0xFE0F)

/-- Model of JS trim on a character list: drop whitespace from both ends. -/
def trimChars (cs : List Char) : List Char :=
  ((cs.dropWhile Char.isWhitespace).reverse.dropWhile Char.isWhitespace).reverse

/-- Body of stripEmojiPrefix on strings: drop the leading run of emoji
characters, then trim surrounding whitespace. -/
def stripEmojiStr (s : String) : String :=
  String.mk (trimChars (s.data.dropWhile isEmojiLeadChar))

/-- The stripEmojiPrefix transform lifted to `Value`: non-strings are
returned unchanged, as in the typeof guard of the source. -/
def stripEmojiVal : Value → Value
  | .str s => .str (stripEmojiStr s)
  | v => v

/-- Which side emitted a filter entry. -/
inductive Source where
  | powerbi
  | arcgis
deriving DecidableEq, Repr

/-- One normalized selection constraint (`FilterEntry` in the shared
context). -/
structure FilterEntry where
  field : String
  powerbiTable : Option String
  powerbiColumn : Option String
  values : List Value
  source : Source
deriving DecidableEq, Repr

/-- One static translation rule (`FieldMapping` in
`config/filter-mapping.ts`). -/
structure FieldMapping where
  powerbiTable : String
  powerbiColumn : String
  arcgisLayerTitle : Option String
  arcgisField : String
  transformValue : Option (Value → Value)

/-- The shipped mapping table `FIELD_MAPPINGS`: the County slicer column
fans out to four ArcGIS layers, each with `stripEmojiPrefix` as the value
transform. -/
def FIELD_MAPPINGS : List FieldMapping :=
  [ ⟨"NC_Permits", "County Lebel", some "NC_Permits_Cleaned", "County",
      some stripEmojiVal⟩,
    ⟨"NC_Permits", "County Lebel", some "NC_Dentists_All merged", "Lebel",
      some stripEmojiVal⟩,
    ⟨"NC_Permits", "County Lebel", some "New overlay county", "County",
      some stripEmojiVal⟩,
    ⟨"NC_Permits", "County Lebel",
      some "North Carolina State and County Boundary Polygons", "County",
      some stripEmojiVal⟩ ]

/-- Apply the transform of a mapping when it has one,
as the ternary in the source does. -/
def applyTransform (m : FieldMapping) (v : Value) : Value :=
  match m.transformValue with
  | some t => t v
  | none => v

/-- Column match of the mapping lookup: both optional report coordinates
of the entry must be present and equal to those of the mapping row. -/
def columnMatches (m : FieldMapping) (f : FilterEntry) : Bool :=
  decide (some m.powerbiTable = f.powerbiTable) &&
  decide (some m.powerbiColumn = f.powerbiColumn)

/-- Layer match of the mapping lookup: an unset mapping layer title
matches every layer, a set one must equal the layer title. -/
def layerTitleMatches (m : FieldMapping) (title : String) : Bool :=
  match m.arcgisLayerTitle with
  | none => true
  | some t => decide (t = title)

/-- The `FIELD_MAPPINGS.find` call inside `buildWhereClause`. -/
def findLayerMapping (mappings : List FieldMapping) (title : String)
    (f : FilterEntry) : Option FieldMapping :=
  mappings.find? (fun m => columnMatches m f && layerTitleMatches m title)

/-- The clause contributed by one filter entry in the `buildWhereClause`
loop: skipped without a matching mapping, an equality clause for one
transformed value, an `IN (...)` list for several, nothing for none. -/
def entryClause (mappings : List FieldMapping) (title : String)
    (f : FilterEntry) : Option String :=
  match findLayerMapping mappings title f with
  | none => none
  | some m =>
    let cleanValues := f.values.map (applyTransform m)
    match cleanValues with
    | [] => none
    | [v] => some (renderEqClause m.arcgisField v)
    | vs =>
      some (m.arcgisField ++ " IN (" ++
        String.intercalate ", " (vs.map renderInItem) ++ ")")

/-- Translation of buildWhereClause: one optional clause per entry, the
collected clauses joined with AND, null when none survive. -/
def buildWhereClause (mappings : List FieldMapping) (title : String)
    (filters : List FilterEntry) : Option String :=
  let clauses := filters.filterMap (entryClause mappings title)
  if clauses.isEmpty then none else some (String.intercalate " AND " clauses)

/-! Report-side extractor (ReportEmbedView) -/

/-- The `FIELD_MAPPINGS.find` call inside `pushFilter`, keyed on the raw
report `(table, column)` pair. -/
def findColumnMapping (mappings : List FieldMapping) (table column : String) :
    Option FieldMapping :=
  mappings.find? (fun m =>
    decide (m.powerbiTable = table) && decide (m.powerbiColumn = column))

/-- The canonical field of a report triplet: the mapped ArcGIS field,
falling back to the raw report column name when no mapping matches. -/
def canonicalField (mappings : List FieldMapping) (table column : String) :
    String :=
  match findColumnMapping mappings table column with
  | some m => m.arcgisField
  | none => column

/-- Add a value to an entry unless it is already present
(`if (!existing.values.includes(value)) existing.values.push(value)`). -/
def addValueToEntry (f : FilterEntry) (v : Value) : FilterEntry :=
  if v ∈ f.values then f else { f with values := f.values ++ [v] }

/-- Mutate the first entry carrying `field` — the `filters.find` +
in-place push of the source. -/
def insertValueFirst : List FilterEntry → String → Value → List FilterEntry
  | [], _, _ => []
  | f :: rest, field, v =>
    if f.field = field then addValueToEntry f v :: rest
    else f :: insertValueFirst rest field v

/-- Translation of pushFilter: merge the value into the existing entry for
the canonical field, or append a fresh report-sourced entry. -/
def pushFilter (filters : List FilterEntry) (table column : String)
    (v : Value) : List FilterEntry :=
  let field := canonicalField FIELD_MAPPINGS table column
  if filters.any (fun f => decide (f.field = field)) then
    insertValueFirst filters field v
  else
    filters ++ [⟨field, some table, some column, [v], Source.powerbi⟩]

/-- Fold a list of `(table, column, value)` triplets through `pushFilter`,
as the extractor loops do. -/
def pushAll (init : List FilterEntry)
    (ts : List (String × String × Value)) : List FilterEntry :=
  ts.foldl (fun fs t => pushFilter fs t.1 t.2.1 t.2.2) init

/-- A `{table?, column?}` target from a Power BI payload. -/
structure PbiTarget where
  table : Option String
  column : Option String
deriving DecidableEq, Repr

/-- One `identity` item of a selected data point. -/
structure IdentityItem where
  target : Option PbiTarget
  eqValue : Option Value
deriving DecidableEq, Repr

/-- One `values` item of a selected data point. -/
structure ValueItem where
  target : Option PbiTarget
  value : Option Value
  formattedValue : Option String
deriving DecidableEq, Repr

/-- One selected data point of a `dataSelected` payload. -/
structure DataPoint where
  identity : List IdentityItem
  values : List ValueItem
deriving DecidableEq, Repr

/-- The guard `if (table && column && value !== undefined)`: JS truthiness
rejects absent and empty-string coordinates; only an absent value is
rejected. -/
def usableTriplet (t : Option PbiTarget) (v : Option Value) :
    Option (String × String × Value) :=
  match t with
  | none => none
  | some tgt =>
    match tgt.table, tgt.column, v with
    | some table, some column, some value =>
      if table = "" ∨ column = "" then none else some (table, column, value)
    | _, _, _ => none

/-- The triplets one data point contributes: its identity items, then its
value items with `v.value ?? v.formattedValue`. -/
def dataPointTriplets (dp : DataPoint) : List (String × String × Value) :=
  dp.identity.filterMap (fun it => usableTriplet it.target it.eqValue) ++
  dp.values.filterMap (fun vi =>
    usableTriplet vi.target (vi.value <|> vi.formattedValue.map Value.str))

/-- What an extractor event does to the Filter Store: replace the snapshot
or leave it alone. -/
inductive ExtractResult where
  | write : List FilterEntry → ExtractResult
  | noWrite : ExtractResult
deriving DecidableEq, Repr

/-- The `dataSelected` payload `event.detail`. -/
structure SelectionDetail where
  dataPoints : Option (List DataPoint)
deriving DecidableEq, Repr

/-- The entries accumulated by the `handleDataSelected` loops. -/
def selectionFilters (dps : List DataPoint) : List FilterEntry :=
  pushAll [] (dps.flatMap dataPointTriplets)

/-- Translation of handleDataSelected: missing detail is ignored, an empty
data-point list clears the store, a non-empty extraction replaces the
snapshot, and an extraction that yields nothing writes nothing. -/
def handleDataSelected (ev : Option SelectionDetail) : ExtractResult :=
  match ev with
  | none => .noWrite
  | some d =>
    match d.dataPoints with
    | none => .write []
    | some dps =>
      if dps.isEmpty then .write []
      else
        let nf := selectionFilters dps
        if nf.isEmpty then .noWrite else .write nf

/-- One active page filter as seen by `pollActiveFilters`: its
`filterType === Basic` flag, target and raw value list (a `none` item
stands for a `null`/`undefined` value). -/
structure PageFilter where
  isBasic : Bool
  target : Option PbiTarget
  values : Option (List (Option Value))
deriving DecidableEq, Repr

/-- Triplets contributed by one page filter: skipped unless it is a basic
filter with a usable target and a non-empty value list; null-ish values are
dropped. -/
def pageFilterTriplets (pf : PageFilter) : List (String × String × Value) :=
  if !pf.isBasic then []
  else
    match pf.target with
    | none => []
    | some tgt =>
      match tgt.table, tgt.column, pf.values with
      | some table, some column, some vs =>
        if table = "" ∨ column = "" ∨ vs.isEmpty then []
        else vs.filterMap (fun ov => ov.map (fun v => (table, column, v)))
      | _, _, _ => []

/-- Translation of pollActiveFilters on the polled page-filter list:
nothing is written when the poll returns no filters or the accumulated
entry list is empty. -/
def pollActiveFilters (pageFilters : Option (List PageFilter)) :
    ExtractResult :=
  match pageFilters with
  | none => .noWrite
  | some pfs =>
    if pfs.isEmpty then .noWrite
    else
      let nf := pushAll [] (pfs.flatMap pageFilterTriplets)
      if nf.isEmpty then .noWrite else .write nf

/-! Report-side applier (ReportEmbedView effect on
`activeFilters`) -/

/-- The Power BI basic filter issued by `report.setFilters`. -/
structure PbiBasicFilter where
  table : String
  column : String
  op : String
  values : List Value
deriving DecidableEq, Repr

/-- Conversion of a map-sourced entry to a basic filter, defined when both
report coordinates are present and truthy, as in the filter-then-map of the
source. -/
def toPbiBasicFilter (f : FilterEntry) : Option PbiBasicFilter :=
  match f.powerbiTable, f.powerbiColumn with
  | some t, some c =>
    if t = "" ∨ c = "" then none else some ⟨t, c, "In", f.values⟩
  | _, _ => none

/-- A command issued to the report widget. -/
inductive ReportCommand where
  | removeFilters : ReportCommand
  | setFilters : List PbiBasicFilter → ReportCommand
deriving DecidableEq, Repr

/-- The ArcGIS→Power BI applier effect: keep only `source === "arcgis"`
entries; an empty subset issues `report.removeFilters()`, a non-empty
conversion issues `report.setFilters(pbiFilters)`, and a subset whose
entries all lack report coordinates issues nothing. -/
def reportApplierCommands (activeFilters : List FilterEntry) :
    List ReportCommand :=
  let arcgisFilters :=
    activeFilters.filter (fun f => decide (f.source = Source.arcgis))
  if arcgisFilters.isEmpty then [ReportCommand.removeFilters]
  else
    let pbiFilters := arcgisFilters.filterMap toPbiBasicFilter
    if pbiFilters.isEmpty then [] else [ReportCommand.setFilters pbiFilters]

/-- The report widget filter state: `none` before any command, `some fs`
once a set/remove has been accepted. -/
def applyReportCommand (_st : Option (List PbiBasicFilter)) :
    ReportCommand → Option (List PbiBasicFilter)
  | .removeFilters => some []
  | .setFilters fs => some fs

/-- Run one report-applier invocation against the widget state. -/
def reportApplyOnce (st : Option (List PbiBasicFilter))
    (s : List FilterEntry) : Option (List PbiBasicFilter) :=
  (reportApplierCommands s).foldl applyReportCommand st

/-! Map-side model (ArcGIS map component) -/

/-- A geographic extent with rational coordinates. -/
structure Extent where
  xmin : ℚ
  ymin : ℚ
  xmax : ℚ
  ymax : ℚ
deriving DecidableEq, Repr

/-- Union of two extents: the componentwise bounding box. -/
def Extent.union (a b : Extent) : Extent :=
  ⟨min a.xmin b.xmin, min a.ymin b.ymin, max a.xmax b.xmax, max a.ymax b.ymax⟩

/-- Expansion of an extent: scale width and height by k about the center. -/
def Extent.expand (a : Extent) (k : ℚ) : Extent :=
  let cx := (a.xmin + a.xmax) / 2
  let cy := (a.ymin + a.ymax) / 2
  let hw := (a.xmax - a.xmin) * k / 2
  let hh := (a.ymax - a.ymin) * k / 2
  ⟨cx - hw, cy - hh, cx + hw, cy + hh⟩

/-- A feature geometry, which may or may not expose an extent. -/
structure Geometry where
  extent : Option Extent
deriving DecidableEq, Repr

/-- A queried feature (`result.features` element). -/
structure Feature where
  geometry : Option Geometry
deriving DecidableEq, Repr

/-- The renderer facts `isVisualizationLayer` inspects on a
`FeatureLayer`. -/
structure FeatureLayer where
  title : String
  rendererType : Option String
  featureReduction : Bool
deriving DecidableEq, Repr

/-- Translation of isVisualizationLayer: a heatmap renderer or a
featureReduction (cluster) marks the layer visualization-only. -/
def isVisualizationLayer (fl : FeatureLayer) : Bool :=
  (match fl.rendererType with
   | some t => decide (t = "heatmap")
   | none => false) || fl.featureReduction

/-- The map-widget boundary: feature queries may fail, and highlighting may
be unsupported on a layer. -/
structure MapEnv where
  queryFeatures : FeatureLayer → String → Except Unit (List Feature)
  canHighlight : FeatureLayer → Bool

/-- A command issued to the map widget by the applier. -/
inductive MapCommand where
  | clearHighlights : MapCommand
  | setLayerFilter : FeatureLayer → Option String → MapCommand
  | goTo : Extent → MapCommand
  | highlight : FeatureLayer → List Feature → MapCommand
deriving DecidableEq, Repr

/-- The `combinedExtent` loop of `zoomToFilteredArea`: union the extents of
the features that expose one. -/
def unionExtents (feats : List Feature) : Option Extent :=
  feats.foldl
    (fun acc f =>
      match f.geometry with
      | none => acc
      | some g =>
        match g.extent with
        | none => acc
        | some e =>
          match acc with
          | none => some e
          | some a => some (a.union e))
    none

/-- Commands issued once a layer query returns matching features: a zoom
to the expanded union extent when one exists, and a highlight when the
layer view supports it. -/
def winnerCommands (env : MapEnv) (fl : FeatureLayer)
    (feats : List Feature) : List MapCommand :=
  (match unionExtents feats with
   | some e => [MapCommand.goTo (e.expand (13 / 10))]
   | none => []) ++
  (if env.canHighlight fl then [MapCommand.highlight fl feats] else [])

/-- Translation of zoomToFilteredArea: scan the filterable layers in
order; a layer without a where clause is skipped unqueried, a failed or
empty query moves on, and the first layer with matching features ends the
scan.  Returns the emitted commands and the layers actually queried. -/
def zoomScan (env : MapEnv) (filters : List FilterEntry) :
    List FeatureLayer → List MapCommand × List FeatureLayer
  | [] => ([], [])
  | fl :: rest =>
    match buildWhereClause FIELD_MAPPINGS fl.title filters with
    | none => zoomScan env filters rest
    | some w =>
      match env.queryFeatures fl w with
      | Except.error _ =>
        let r := zoomScan env filters rest
        (r.1, fl :: r.2)
      | Except.ok feats =>
        if feats.isEmpty then
          let r := zoomScan env filters rest
          (r.1, fl :: r.2)
        else (winnerCommands env fl feats, [fl])

/-- The Power BI→ArcGIS applier effect on one snapshot: highlights are
cleared first; an empty report-sourced subset removes the predicate from
every filterable layer and returns to the initial extent; a non-empty
subset sets the predicate of each filterable layer and runs the zoom scan.
Visualization-only layers are only logged. -/
def mapApplierCommands (env : MapEnv) (layers : List FeatureLayer)
    (initialExtent : Option Extent) (activeFilters : List FilterEntry) :
    List MapCommand :=
  let pbiFilters :=
    activeFilters.filter (fun f => decide (f.source = Source.powerbi))
  let filterable := layers.filter (fun fl => !isVisualizationLayer fl)
  if pbiFilters.isEmpty then
    MapCommand.clearHighlights ::
      (filterable.map (fun fl => MapCommand.setLayerFilter fl none) ++
        (match initialExtent with
         | some e => [MapCommand.goTo e]
         | none => []))
  else
    MapCommand.clearHighlights ::
      (filterable.map (fun fl =>
          MapCommand.setLayerFilter fl
            (buildWhereClause FIELD_MAPPINGS fl.title pbiFilters)) ++
        (zoomScan env pbiFilters filterable).1)

/-- The map-widget state the applier commands act on: per-layer
definition filter, the view extent, and the live highlight handles. -/
structure MapState where
  predicates : FeatureLayer → Option String
  extent : Option Extent
  highlights : List (FeatureLayer × List Feature)

/-- Execute one command against the map state. -/
def applyCommand (st : MapState) : MapCommand → MapState
  | .clearHighlights => { st with highlights := [] }
  | .setLayerFilter fl w =>
    { st with predicates := fun l => if l = fl then w else st.predicates l }
  | .goTo e => { st with extent := some e }
  | .highlight fl fs => { st with highlights := st.highlights ++ [(fl, fs)] }

/-- Execute a command list left to right. -/
def runCommands (cs : List MapCommand) (st : MapState) : MapState :=
  cs.foldl applyCommand st

/-- Run one map-applier invocation against the map state. -/
def mapApplyOnce (env : MapEnv) (layers : List FeatureLayer)
    (initialExtent : Option Extent) (st : MapState)
    (s : List FilterEntry) : MapState :=
  runCommands (mapApplierCommands env layers initialExtent s) st

/-! Map-side extractor (click handler) -/

/-- One hit-test result: whether it is a graphic hit, the owning layer id
and title, and the hit attributes (a none item value stands for JS null). -/
structure GraphicHit where
  isGraphic : Bool
  layerId : Option String
  layerTitle : Option String
  attributes : Option (List (String × Option Value))
deriving DecidableEq, Repr

/-- The hit filter: graphic hits on registered operational layers only. -/
def operationalHits (opIds : List String) (hits : List GraphicHit) :
    List GraphicHit :=
  hits.filter (fun h =>
    h.isGraphic &&
      (match h.layerId with
       | some i => decide (i ∈ opIds)
       | none => false))

/-- Attribute lookup on the hit graphic by field name. -/
def attrValue (attrs : List (String × Option Value)) (k : String) :
    Option (Option Value) :=
  (attrs.find? (fun p => decide (p.1 = k))).map (fun p => p.2)

/-- The click-handler guard on a mapping: a set `arcgisLayerTitle` must
equal the title of the hit layer; an unset one matches any hit. -/
def layerOkClick (m : FieldMapping) (lt : Option String) : Bool :=
  match m.arcgisLayerTitle with
  | none => true
  | some t => decide (some t = lt)

/-- The `FIELD_MAPPINGS` loop of the click handler: one map-sourced entry
per mapping that matches the hit layer and finds a non-null attribute. -/
def clickEntries (mappings : List FieldMapping) (lt : Option String)
    (attrs : List (String × Option Value)) : List FilterEntry :=
  mappings.filterMap (fun m =>
    if layerOkClick m lt then
      match attrValue attrs m.arcgisField with
      | some (some v) =>
        some ⟨m.arcgisField, some m.powerbiTable, some m.powerbiColumn,
          [v], Source.arcgis⟩
      | _ => none
    else none)

/-- What a click does to the Filter Store. -/
inductive ClickResult where
  | clearAll : ClickResult
  | write : List FilterEntry → ClickResult
  | noWrite : ClickResult
deriving DecidableEq, Repr

/-- The click handler: no operational hit clears the store; a first hit
without attributes writes nothing; otherwise the extracted entries replace
the snapshot when non-empty and write nothing when empty. -/
def mapClickExtract (opIds : List String) (hits : List GraphicHit) :
    ClickResult :=
  match operationalHits opIds hits with
  | [] => .clearAll
  | h :: _ =>
    match h.attributes with
    | none => .noWrite
    | some attrs =>
      let nf := clickEntries FIELD_MAPPINGS h.layerTitle attrs
      if nf.isEmpty then .noWrite else .write nf

/-! Filter Store semantics -/

/-- Store semantics: setFilters replaces the whole snapshot; clearFilters
replaces it with the empty set; an event that issues neither leaves it
unchanged. -/
def storeApplyClick (st : List FilterEntry) : ClickResult → List FilterEntry
  | .clearAll => []
  | .write s => s
  | .noWrite => st

/-- Store update for a report-side extractor event. -/
def storeApplyExtract (st : List FilterEntry) :
    ExtractResult → List FilterEntry
  | .write s => s
  | .noWrite => st

/-- The extent reached by a feature, through its optional geometry. -/
def featureExtent (f : Feature) : Option Extent :=
  match f.geometry with
  | none => none
  | some g => g.extent

/-! Helper functions over command lists -/

/-- The argument of the last `setLayerFilter` aimed at layer `l`. -/
def lastSetFor (l : FeatureLayer) : List MapCommand → Option (Option String)
  | [] => none
  | MapCommand.setLayerFilter fl w :: cs =>
    match lastSetFor l cs with
    | some w2 => some w2
    | none => if fl = l then some w else none
  | _ :: cs => lastSetFor l cs

/-- The target of the last `goTo` in a command list. -/
def lastGoTo : List MapCommand → Option Extent
  | [] => none
  | MapCommand.goTo e :: cs =>
    match lastGoTo cs with
    | some e2 => some e2
    | none => some e
  | _ :: cs => lastGoTo cs

/-- The highlights a command list adds, in order. -/
def collectHighlights : List MapCommand → List (FeatureLayer × List Feature)
  | [] => []
  | MapCommand.highlight fl fs :: cs => (fl, fs) :: collectHighlights cs
  | _ :: cs => collectHighlights cs

/-- A command list containing no `clearHighlights`. -/
def clearFree : List MapCommand → Bool
  | [] => true
  | MapCommand.clearHighlights :: _ => false
  | _ :: cs => clearFree cs

lemma runCommands_cons (c : MapCommand) (cs : List MapCommand)
    (st : MapState) :
    runCommands (c :: cs) st = runCommands cs (applyCommand st c) := rfl

lemma predicates_runCommands (cs : List MapCommand) (st : MapState)
    (l : FeatureLayer) :
    (runCommands cs st).predicates l =
      (lastSetFor l cs).getD (st.predicates l) := by
  induction cs generalizing st with
  | nil => rfl
  | cons c cs ih =>
    rw [runCommands_cons, ih]
    cases c with
    | clearHighlights => rfl
    | goTo e => rfl
    | highlight fl fs => rfl
    | setLayerFilter fl w =>
      show (lastSetFor l cs).getD (if l = fl then w else st.predicates l) = _
      cases h : lastSetFor l cs with
      | some w2 => simp [lastSetFor, h]
      | none =>
        simp only [lastSetFor, h, Option.getD_none]
        by_cases hfl : fl = l
        · subst hfl; simp
        · have : ¬ l = fl := fun h2 => hfl h2.symm
          simp [hfl, this]

lemma extent_runCommands (cs : List MapCommand) (st : MapState) :
    (runCommands cs st).extent =
      match lastGoTo cs with
      | some e => some e
      | none => st.extent := by
  induction cs generalizing st with
  | nil => rfl
  | cons c cs ih =>
    rw [runCommands_cons, ih]
    cases c with
    | clearHighlights => rfl
    | setLayerFilter fl w => rfl
    | highlight fl fs => rfl
    | goTo e =>
      show (match lastGoTo cs with
            | some e2 => some e2
            | none => some e) = _
      cases h : lastGoTo cs with
      | some e2 => simp [lastGoTo, h]
      | none => simp [lastGoTo, h]

lemma highlights_runCommands (cs : List MapCommand) (st : MapState)
    (h : clearFree cs = true) :
    (runCommands cs st).highlights = st.highlights ++ collectHighlights cs := by
  induction cs generalizing st with
  | nil => simp [runCommands, collectHighlights]
  | cons c cs ih =>
    rw [runCommands_cons]
    cases c with
    | clearHighlights => simp [clearFree] at h
    | setLayerFilter fl w =>
      rw [ih _ (by simpa [clearFree] using h)]; rfl
    | goTo e =>
      rw [ih _ (by simpa [clearFree] using h)]; rfl
    | highlight fl fs =>
      rw [ih _ (by simpa [clearFree] using h)]
      show st.highlights ++ [(fl, fs)] ++ collectHighlights cs = _
      simp [collectHighlights]

lemma MapState.ext2 (a b : MapState) (hp : a.predicates = b.predicates)
    (he : a.extent = b.extent) (hh : a.highlights = b.highlights) :
    a = b := by
  cases a; cases b; simp_all

lemma clearFree_append (a b : List MapCommand) :
    clearFree (a ++ b) = (clearFree a && clearFree b) := by
  induction a with
  | nil => simp [clearFree]
  | cons c cs ih =>
    cases c with
    | clearHighlights => simp [clearFree]
    | setLayerFilter fl w => simpa [clearFree] using ih
    | goTo e => simpa [clearFree] using ih
    | highlight fl fs => simpa [clearFree] using ih

lemma clearFree_map_setLayerFilter (ls : List FeatureLayer)
    (g : FeatureLayer → Option String) :
    clearFree (ls.map (fun fl => MapCommand.setLayerFilter fl (g fl))) =
      true := by
  induction ls with
  | nil => rfl
  | cons l ls ih => simpa [clearFree] using ih

lemma clearFree_winnerCommands (env : MapEnv) (fl : FeatureLayer)
    (feats : List Feature) : clearFree (winnerCommands env fl feats) = true := by
  unfold winnerCommands
  cases unionExtents feats with
  | none => cases env.canHighlight fl <;> simp [clearFree]
  | some e => cases env.canHighlight fl <;> simp [clearFree]

lemma zoomScan_cons (env : MapEnv) (filters : List FilterEntry)
    (fl : FeatureLayer) (rest : List FeatureLayer) :
    zoomScan env filters (fl :: rest) =
      match buildWhereClause FIELD_MAPPINGS fl.title filters with
      | none => zoomScan env filters rest
      | some w =>
        match env.queryFeatures fl w with
        | Except.error _ =>
          ((zoomScan env filters rest).1, fl :: (zoomScan env filters rest).2)
        | Except.ok feats =>
          if feats.isEmpty then
            ((zoomScan env filters rest).1, fl :: (zoomScan env filters rest).2)
          else (winnerCommands env fl feats, [fl]) := rfl

lemma zoomScan_cons_skip (env : MapEnv) (filters : List FilterEntry)
    (fl : FeatureLayer) (rest : List FeatureLayer)
    (hb : buildWhereClause FIELD_MAPPINGS fl.title filters = none) :
    zoomScan env filters (fl :: rest) = zoomScan env filters rest := by
  rw [zoomScan_cons, hb]

lemma zoomScan_cons_error (env : MapEnv) (filters : List FilterEntry)
    (fl : FeatureLayer) (rest : List FeatureLayer) (w : String)
    (hb : buildWhereClause FIELD_MAPPINGS fl.title filters = some w)
    (hq : env.queryFeatures fl w = Except.error ()) :
    zoomScan env filters (fl :: rest) =
      ((zoomScan env filters rest).1, fl :: (zoomScan env filters rest).2) := by
  rw [zoomScan_cons, hb]
  dsimp only
  rw [hq]

lemma zoomScan_cons_ok_empty (env : MapEnv) (filters : List FilterEntry)
    (fl : FeatureLayer) (rest : List FeatureLayer) (w : String)
    (hb : buildWhereClause FIELD_MAPPINGS fl.title filters = some w)
    (hq : env.queryFeatures fl w = Except.ok []) :
    zoomScan env filters (fl :: rest) =
      ((zoomScan env filters rest).1, fl :: (zoomScan env filters rest).2) := by
  rw [zoomScan_cons, hb]
  dsimp only
  rw [hq]
  rfl

lemma zoomScan_cons_winner (env : MapEnv) (filters : List FilterEntry)
    (fl : FeatureLayer) (rest : List FeatureLayer) (w : String)
    (feats : List Feature)
    (hb : buildWhereClause FIELD_MAPPINGS fl.title filters = some w)
    (hq : env.queryFeatures fl w = Except.ok feats) (hne : feats ≠ []) :
    zoomScan env filters (fl :: rest) = (winnerCommands env fl feats, [fl]) := by
  rw [zoomScan_cons, hb]
  dsimp only
  rw [hq]
  simp [hne]

lemma clearFree_zoomScan (env : MapEnv) (filters : List FilterEntry)
    (layers : List FeatureLayer) :
    clearFree (zoomScan env filters layers).1 = true := by
  induction layers with
  | nil => rfl
  | cons fl rest ih =>
    cases hb : buildWhereClause FIELD_MAPPINGS fl.title filters with
    | none => rw [zoomScan_cons_skip env filters fl rest hb]; exact ih
    | some w =>
      cases hq : env.queryFeatures fl w with
      | error e =>
        cases e
        rw [zoomScan_cons_error env filters fl rest w hb hq]
        exact ih
      | ok feats =>
        cases feats with
        | nil =>
          rw [zoomScan_cons_ok_empty env filters fl rest w hb hq]
          exact ih
        | cons f fs =>
          rw [zoomScan_cons_winner env filters fl rest w (f :: fs) hb hq
            (by simp)]
          exact clearFree_winnerCommands env fl (f :: fs)

lemma mapApplierCommands_empty (env : MapEnv) (layers : List FeatureLayer)
    (e0 : Option Extent) (s : List FilterEntry)
    (hp : (s.filter (fun f => decide (f.source = Source.powerbi))).isEmpty =
      true) :
    mapApplierCommands env layers e0 s =
      MapCommand.clearHighlights ::
        ((layers.filter (fun fl => !isVisualizationLayer fl)).map
            (fun fl => MapCommand.setLayerFilter fl none) ++
          (match e0 with
           | some e => [MapCommand.goTo e]
           | none => [])) := by
  unfold mapApplierCommands
  rw [if_pos hp]

lemma mapApplierCommands_nonempty (env : MapEnv) (layers : List FeatureLayer)
    (e0 : Option Extent) (s : List FilterEntry)
    (hp : (s.filter (fun f => decide (f.source = Source.powerbi))).isEmpty =
      false) :
    mapApplierCommands env layers e0 s =
      MapCommand.clearHighlights ::
        ((layers.filter (fun fl => !isVisualizationLayer fl)).map
            (fun fl => MapCommand.setLayerFilter fl
              (buildWhereClause FIELD_MAPPINGS fl.title
                (s.filter (fun f => decide (f.source = Source.powerbi))))) ++
          (zoomScan env
            (s.filter (fun f => decide (f.source = Source.powerbi)))
            (layers.filter (fun fl => !isVisualizationLayer fl))).1) := by
  unfold mapApplierCommands
  rw [if_neg (by simp [hp])]

lemma mapApplierCommands_shape (env : MapEnv) (layers : List FeatureLayer)
    (e0 : Option Extent) (s : List FilterEntry) :
    ∃ t, mapApplierCommands env layers e0 s = MapCommand.clearHighlights :: t ∧
      clearFree t = true := by
  cases hp : (s.filter (fun f => decide (f.source = Source.powerbi))).isEmpty
  · refine ⟨_, mapApplierCommands_nonempty env layers e0 s hp, ?_⟩
    simp only [clearFree_append, clearFree_map_setLayerFilter,
      clearFree_zoomScan, Bool.and_self]
  · refine ⟨_, mapApplierCommands_empty env layers e0 s hp, ?_⟩
    rw [clearFree_append, clearFree_map_setLayerFilter]
    cases e0 <;> simp [clearFree]

lemma no_setLayerFilter_winnerCommands (env : MapEnv) (l fl : FeatureLayer)
    (w : Option String) (feats : List Feature) :
    MapCommand.setLayerFilter l w ∉ winnerCommands env fl feats := by
  unfold winnerCommands
  cases unionExtents feats with
  | none => cases env.canHighlight fl <;> simp
  | some e => cases env.canHighlight fl <;> simp

lemma no_setLayerFilter_zoomScan (env : MapEnv) (filters : List FilterEntry)
    (layers : List FeatureLayer) (l : FeatureLayer) (w : Option String) :
    MapCommand.setLayerFilter l w ∉ (zoomScan env filters layers).1 := by
  induction layers with
  | nil => simp [zoomScan]
  | cons fl rest ih =>
    cases hb : buildWhereClause FIELD_MAPPINGS fl.title filters with
    | none => rw [zoomScan_cons_skip env filters fl rest hb]; exact ih
    | some wc =>
      cases hq : env.queryFeatures fl wc with
      | error e =>
        cases e
        rw [zoomScan_cons_error env filters fl rest wc hb hq]
        exact ih
      | ok feats =>
        cases feats with
        | nil =>
          rw [zoomScan_cons_ok_empty env filters fl rest wc hb hq]
          exact ih
        | cons f fs =>
          rw [zoomScan_cons_winner env filters fl rest wc (f :: fs) hb hq
            (by simp)]
          exact no_setLayerFilter_winnerCommands env l fl w (f :: fs)

lemma mem_filterable_elim (layers : List FeatureLayer) (fl : FeatureLayer)
    (hf : fl ∈ layers.filter (fun l => !isVisualizationLayer l)) :
    fl ∈ layers ∧ isVisualizationLayer fl = false := by
  refine ⟨(List.mem_filter.mp hf).1, ?_⟩
  have := (List.mem_filter.mp hf).2
  simpa using this

lemma setLayerFilter_mem_mapApplier (env : MapEnv)
    (layers : List FeatureLayer) (e0 : Option Extent) (s : List FilterEntry)
    (fl : FeatureLayer) (w : Option String)
    (h : MapCommand.setLayerFilter fl w ∈ mapApplierCommands env layers e0 s) :
    fl ∈ layers ∧ isVisualizationLayer fl = false := by
  cases hp : (s.filter (fun f => decide (f.source = Source.powerbi))).isEmpty
  · rw [mapApplierCommands_nonempty env layers e0 s hp] at h
    rcases List.mem_cons.mp h with h | h
    · cases h
    rcases List.mem_append.mp h with h | h
    · rcases List.mem_map.mp h with ⟨l2, hl2, heq⟩
      rw [MapCommand.setLayerFilter.injEq] at heq
      exact heq.1 ▸ mem_filterable_elim layers l2 hl2
    · exact absurd h (no_setLayerFilter_zoomScan env _ _ fl w)
  · rw [mapApplierCommands_empty env layers e0 s hp] at h
    rcases List.mem_cons.mp h with h | h
    · cases h
    rcases List.mem_append.mp h with h | h
    · rcases List.mem_map.mp h with ⟨l2, hl2, heq⟩
      rw [MapCommand.setLayerFilter.injEq] at heq
      exact heq.1 ▸ mem_filterable_elim layers l2 hl2
    · cases e0 with
      | none => simp at h
      | some e => simp at h

lemma lastSetFor_mem (l : FeatureLayer) (cs : List MapCommand)
    (w : Option String) (h : lastSetFor l cs = some w) :
    MapCommand.setLayerFilter l w ∈ cs := by
  induction cs with
  | nil => simp [lastSetFor] at h
  | cons c cs ih =>
    cases c with
    | clearHighlights => exact List.mem_cons_of_mem _ (ih (by simpa [lastSetFor] using h))
    | goTo e => exact List.mem_cons_of_mem _ (ih (by simpa [lastSetFor] using h))
    | highlight fl fs => exact List.mem_cons_of_mem _ (ih (by simpa [lastSetFor] using h))
    | setLayerFilter fl w2 =>
      rw [show lastSetFor l (MapCommand.setLayerFilter fl w2 :: cs) =
          (match lastSetFor l cs with
           | some w3 => some w3
           | none => if fl = l then some w2 else none) from rfl] at h
      cases h2 : lastSetFor l cs with
      | some w3 =>
        rw [h2] at h
        cases h
        exact List.mem_cons_of_mem _ (ih h2)
      | none =>
        rw [h2] at h
        by_cases hfl : fl = l
        · subst hfl
          simp at h
          subst h
          exact List.mem_cons_self _ _
        · simp [hfl] at h

lemma lastSetFor_clear_cons (l : FeatureLayer) (t : List MapCommand) :
    lastSetFor l (MapCommand.clearHighlights :: t) = lastSetFor l t := rfl

lemma lastGoTo_clear_cons (t : List MapCommand) :
    lastGoTo (MapCommand.clearHighlights :: t) = lastGoTo t := rfl

lemma runCommands_clear_cons (t : List MapCommand) (st : MapState) :
    runCommands (MapCommand.clearHighlights :: t) st =
      runCommands t { st with highlights := [] } := rfl

/-- Re-running a command list of the applier shape — clear the highlights
first, then only overwrites and highlight appends — reaches the same
state. -/
lemma runCommands_idem (t : List MapCommand) (hcf : clearFree t = true)
    (st : MapState) :
    runCommands (MapCommand.clearHighlights :: t)
        (runCommands (MapCommand.clearHighlights :: t) st) =
      runCommands (MapCommand.clearHighlights :: t) st := by
  apply MapState.ext2
  · funext l
    simp only [predicates_runCommands, lastSetFor_clear_cons]
    cases h : lastSetFor l t with
    | some w => simp [h]
    | none => simp [h]
  · simp only [extent_runCommands, lastGoTo_clear_cons]
    cases h : lastGoTo t with
    | some e => simp [h]
    | none => simp [h]
  · simp only [runCommands_clear_cons]
    rw [highlights_runCommands _ _ hcf, highlights_runCommands _ _ hcf]

lemma foldl_applyReport_state_blind (cs : List ReportCommand)
    (st1 st2 : Option (List PbiBasicFilter)) (h : cs ≠ []) :
    cs.foldl applyReportCommand st1 = cs.foldl applyReportCommand st2 := by
  cases cs with
  | nil => exact absurd rfl h
  | cons c cs =>
    have hc : applyReportCommand st1 c = applyReportCommand st2 c := by
      cases c <;> rfl
    simp only [List.foldl_cons, hc]

/-- C9 — Idempotence: for every snapshot `s`, issuing `setFilters(s)` twice
in a row produces exactly the same final per-layer predicate, view extent,
and highlight state as issuing it once; likewise on the report widget.  The
appliers are level-triggered functions of the current snapshot. -/
theorem c9_idempotence :
    ∀ (env : MapEnv) (layers : List FeatureLayer) (e0 : Option Extent)
      (st : MapState) (stR : Option (List PbiBasicFilter))
      (s : List FilterEntry),
      mapApplyOnce env layers e0 (mapApplyOnce env layers e0 st s) s =
          mapApplyOnce env layers e0 st s ∧
        reportApplyOnce (reportApplyOnce stR s) s = reportApplyOnce stR s := by
  intro env layers e0 st stR s
  constructor
  · obtain ⟨t, hsh, hcf⟩ := mapApplierCommands_shape env layers e0 s
    unfold mapApplyOnce
    rw [hsh]
    exact runCommands_idem t hcf st
  · unfold reportApplyOnce
    cases h : reportApplierCommands s with
    | nil => rfl
    | cons c cs =>
      exact foldl_applyReport_state_blind (c :: cs) _ _ (by simp)

lemma filter_source_eq_nil (s : List FilterEntry) (src : Source)
    (h : ∀ f ∈ s, ¬ f.source = src) :
    s.filter (fun f => decide (f.source = src)) = [] := by
  rw [List.filter_eq_nil_iff]
  intro f hf
  simp [h f hf]

lemma lastGoTo_map_setLayerFilter_append (ls : List FeatureLayer)
    (g : FeatureLayer → Option String) (cs : List MapCommand) :
    lastGoTo (ls.map (fun fl => MapCommand.setLayerFilter fl (g fl)) ++ cs) =
      lastGoTo cs := by
  induction ls with
  | nil => rfl
  | cons l ls ih => simpa [lastGoTo] using ih

lemma collectHighlights_map_setLayerFilter_append (ls : List FeatureLayer)
    (g : FeatureLayer → Option String) (cs : List MapCommand) :
    collectHighlights
        (ls.map (fun fl => MapCommand.setLayerFilter fl (g fl)) ++ cs) =
      collectHighlights cs := by
  induction ls with
  | nil => rfl
  | cons l ls ih => simpa [collectHighlights] using ih

/-- C1 (amended) — Self-suppression up to the clear branch: a snapshot
whose entries are all report-sourced never makes the Report-Side Applier
issue `setFilters`; it issues exactly the `removeFilters` clear (because
its map-sourced subset is empty).  Symmetrically, a snapshot whose entries
are all map-sourced never makes the Map-Side Applier set a predicate, zoom
to a filter, or highlight; it runs exactly its clearing branch (null
predicate on every filterable layer plus the reset to the initial
extent). -/
theorem c1_self_suppression_amended :
    ∀ (s : List FilterEntry) (env : MapEnv) (layers : List FeatureLayer)
      (e0 : Option Extent),
      ((∀ f ∈ s, f.source = Source.powerbi) →
        reportApplierCommands s = [ReportCommand.removeFilters]) ∧
      ((∀ f ∈ s, f.source = Source.arcgis) →
        mapApplierCommands env layers e0 s =
          MapCommand.clearHighlights ::
            ((layers.filter (fun fl => !isVisualizationLayer fl)).map
                (fun fl => MapCommand.setLayerFilter fl none) ++
              (match e0 with
               | some e => [MapCommand.goTo e]
               | none => []))) := by
  intro s env layers e0
  constructor
  · intro h
    have hnil : s.filter (fun f => decide (f.source = Source.arcgis)) = [] :=
      filter_source_eq_nil s Source.arcgis
        (fun f hf => by rw [h f hf]; intro hc; cases hc)
    unfold reportApplierCommands
    rw [hnil]
    rfl
  · intro h
    have hnil : s.filter (fun f => decide (f.source = Source.powerbi)) = [] :=
      filter_source_eq_nil s Source.powerbi
        (fun f hf => by rw [h f hf]; intro hc; cases hc)
    exact mapApplierCommands_empty env layers e0 s (by rw [hnil]; rfl)

/-- C1 (counterexample) — the claim as stated is false: a snapshot written
with `source=report` does cause the Report-Side Applier to issue a widget
command (`removeFilters`), and a snapshot written with `source=map` does
cause the Map-Side Applier to issue commands (its clearing branch). -/
theorem c1_self_suppression_counterexample :
    reportApplierCommands
        [⟨"County", some "NC_Permits", some "County Lebel",
          [Value.str "Forsyth"], Source.powerbi⟩] ≠ [] ∧
      mapApplierCommands ⟨fun _ _ => Except.ok [], fun _ => true⟩
          [⟨"NC_Permits_Cleaned", none, false⟩]
          (some ⟨0, 0, 10, 10⟩)
          [⟨"County", some "NC_Permits", some "County Lebel",
            [Value.str "Forsyth"], Source.arcgis⟩] ≠ [] := by
  constructor
  · intro h
    cases h
  · intro h
    cases h

/-- Witness for the amended C1 theorem at a concrete snapshot, applier
environment and layer list. -/
theorem c1_self_suppression_amended_witness :
    reportApplierCommands
        [⟨"County", some "NC_Permits", some "County Lebel",
          [Value.str "Forsyth"], Source.powerbi⟩] =
        [ReportCommand.removeFilters] ∧
      mapApplierCommands ⟨fun _ _ => Except.ok [], fun _ => true⟩
          [⟨"NC_Permits_Cleaned", none, false⟩]
          (some ⟨0, 0, 10, 10⟩)
          [⟨"County", some "NC_Permits", some "County Lebel",
            [Value.str "Forsyth"], Source.arcgis⟩] =
        [MapCommand.clearHighlights,
          MapCommand.setLayerFilter ⟨"NC_Permits_Cleaned", none, false⟩ none,
          MapCommand.goTo ⟨0, 0, 10, 10⟩] := by
  constructor
  · exact (c1_self_suppression_amended
      [⟨"County", some "NC_Permits", some "County Lebel",
        [Value.str "Forsyth"], Source.powerbi⟩]
      ⟨fun _ _ => Except.ok [], fun _ => true⟩ [] none).1 (by decide)
  · exact (c1_self_suppression_amended
      [⟨"County", some "NC_Permits", some "County Lebel",
        [Value.str "Forsyth"], Source.arcgis⟩]
      ⟨fun _ _ => Except.ok [], fun _ => true⟩
      [⟨"NC_Permits_Cleaned", none, false⟩] (some ⟨0, 0, 10, 10⟩)).2
      (by decide)

/-- C3 — Clearing: when the effective filter set is empty (an empty
snapshot from the report side, or a click that hits no operational-layer
feature), the Map-Side Applier clears highlights, removes the predicate
from every filterable layer — and only those — and restores the view to
the exact extent captured at initial load. -/
theorem c3_clearing :
    ∀ (env : MapEnv) (layers : List FeatureLayer) (e0 : Extent)
      (st : MapState) (opIds : List String) (hits : List GraphicHit),
      (mapApplierCommands env layers (some e0) [] =
        MapCommand.clearHighlights ::
          ((layers.filter (fun fl => !isVisualizationLayer fl)).map
              (fun fl => MapCommand.setLayerFilter fl none) ++
            [MapCommand.goTo e0])) ∧
      ((mapApplyOnce env layers (some e0) st []).extent = some e0 ∧
        (mapApplyOnce env layers (some e0) st []).highlights = []) ∧
      (operationalHits opIds hits = [] →
        mapClickExtract opIds hits = ClickResult.clearAll) := by
  intro env layers e0 st opIds hits
  have hcmd := mapApplierCommands_empty env layers (some e0) [] rfl
  refine ⟨hcmd, ⟨?_, ?_⟩, ?_⟩
  · unfold mapApplyOnce
    rw [hcmd, runCommands_clear_cons, extent_runCommands,
      lastGoTo_map_setLayerFilter_append]
    rfl
  · unfold mapApplyOnce
    rw [hcmd, runCommands_clear_cons]
    rw [highlights_runCommands]
    · rw [collectHighlights_map_setLayerFilter_append]
      rfl
    · rw [clearFree_append, clearFree_map_setLayerFilter]
      rfl
  · intro hop
    unfold mapClickExtract
    rw [hop]

/-- Witness for C3 at a concrete environment, layer list, initial extent
and a no-hit click. -/
theorem c3_clearing_witness :
    mapClickExtract ["op1"]
        [⟨true, some "other", some "T", some []⟩, ⟨false, some "op1", none, none⟩] =
      ClickResult.clearAll := by
  exact (c3_clearing ⟨fun _ _ => Except.ok [], fun _ => true⟩ [] ⟨0, 0, 1, 1⟩
    ⟨fun _ => none, none, []⟩ ["op1"]
    [⟨true, some "other", some "T", some []⟩,
      ⟨false, some "op1", none, none⟩]).2.2 (by decide)

/-- C4 — Visualization-only layers are untouched: no `setLayerFilter`
command ever targets a layer classified visualization-only (heatmap
renderer or featureReduction), so the filter state of such a layer is unchanged
by every Map-Side Applier invocation. -/
theorem c4_visualization_layers_untouched :
    ∀ (env : MapEnv) (layers : List FeatureLayer) (e0 : Option Extent)
      (s : List FilterEntry) (st : MapState) (fl : FeatureLayer)
      (w : Option String),
      (MapCommand.setLayerFilter fl w ∈ mapApplierCommands env layers e0 s →
        isVisualizationLayer fl = false) ∧
      (isVisualizationLayer fl = true →
        (mapApplyOnce env layers e0 st s).predicates fl = st.predicates fl) := by
  intro env layers e0 s st fl w
  constructor
  · intro h
    exact (setLayerFilter_mem_mapApplier env layers e0 s fl w h).2
  · intro hviz
    unfold mapApplyOnce
    rw [predicates_runCommands]
    cases h : lastSetFor fl (mapApplierCommands env layers e0 s) with
    | some w2 =>
      have hmem := lastSetFor_mem fl _ w2 h
      have := (setLayerFilter_mem_mapApplier env layers e0 s fl w2 hmem).2
      rw [hviz] at this
      cases this
    | none => rfl

/-- Witness for C4: a heatmap layer and a cluster layer keep their filter
state across an applier invocation with a non-empty report-sourced
snapshot, while the predicate-set command of the plain layer targets a
non-visualization layer. -/
theorem c4_visualization_layers_untouched_witness :
    isVisualizationLayer ⟨"NC_Permits_Cleaned", some "simple", false⟩ =
        false ∧
      (mapApplyOnce ⟨fun _ _ => Except.ok [], fun _ => true⟩
          [⟨"NC_Permits_Cleaned", some "simple", false⟩,
            ⟨"Heat", some "heatmap", false⟩]
          none
          ⟨fun _ => none, none, []⟩
          [⟨"County", some "NC_Permits", some "County Lebel",
            [Value.str "Forsyth"], Source.powerbi⟩]).predicates
          ⟨"Heat", some "heatmap", false⟩ =
        (⟨fun _ => none, none, []⟩ : MapState).predicates
          ⟨"Heat", some "heatmap", false⟩ := by
  constructor
  · exact (c4_visualization_layers_untouched
      ⟨fun _ _ => Except.ok [], fun _ => true⟩
      [⟨"NC_Permits_Cleaned", some "simple", false⟩,
        ⟨"Heat", some "heatmap", false⟩]
      none
      [⟨"County", some "NC_Permits", some "County Lebel",
        [Value.str "Forsyth"], Source.powerbi⟩]
      ⟨fun _ => none, none, []⟩
      ⟨"NC_Permits_Cleaned", some "simple", false⟩
      (some ("County = " ++ sq ++ "Forsyth" ++ sq))).1 (by decide)
  · exact (c4_visualization_layers_untouched
      ⟨fun _ _ => Except.ok [], fun _ => true⟩
      [⟨"NC_Permits_Cleaned", some "simple", false⟩,
        ⟨"Heat", some "heatmap", false⟩]
      none
      [⟨"County", some "NC_Permits", some "County Lebel",
        [Value.str "Forsyth"], Source.powerbi⟩]
      ⟨fun _ => none, none, []⟩
      ⟨"Heat", some "heatmap", false⟩ none).2 (by decide)

/-- C10 — No-write on empty extraction: an extractor event whose payload
yields zero filter entries issues no `setFilters` call, so the Filter Store
snapshot keeps exactly its previous value — for a selection whose data
points expose no usable triplet, a poll that finds only filters
contributing no triplet, and a click whose first operational hit carries
none of the mapped attributes. -/
theorem c10_no_write_on_empty_extraction :
    ∀ (d : SelectionDetail) (dps : List DataPoint) (pfs : List PageFilter)
      (opIds : List String) (hits : List GraphicHit) (h0 : GraphicHit)
      (rest : List GraphicHit) (attrs : List (String × Option Value))
      (st : List FilterEntry),
      (d.dataPoints = some dps → dps ≠ [] →
        (∀ dp ∈ dps, dataPointTriplets dp = []) →
        handleDataSelected (some d) = ExtractResult.noWrite) ∧
      (pfs ≠ [] → (∀ pf ∈ pfs, pageFilterTriplets pf = []) →
        pollActiveFilters (some pfs) = ExtractResult.noWrite) ∧
      (operationalHits opIds hits = h0 :: rest →
        h0.attributes = some attrs →
        clickEntries FIELD_MAPPINGS h0.layerTitle attrs = [] →
        mapClickExtract opIds hits = ClickResult.noWrite) ∧
      (storeApplyExtract st ExtractResult.noWrite = st ∧
        storeApplyClick st ClickResult.noWrite = st) := by
  intro d dps pfs opIds hits h0 rest attrs st
  refine ⟨?_, ?_, ?_, rfl, rfl⟩
  · intro hdp hne hempty
    unfold handleDataSelected
    dsimp only
    rw [hdp]
    have hflat : dps.flatMap dataPointTriplets = [] := by
      rw [List.flatMap_eq_nil_iff]; exact hempty
    have hsel : selectionFilters dps = [] := by
      unfold selectionFilters
      rw [hflat]
      rfl
    have hni : dps.isEmpty = false := by
      cases dps with
      | nil => exact absurd rfl hne
      | cons a l => rfl
    dsimp only
    simp only [hni, Bool.false_eq_true, if_false, hsel]
    rfl
  · intro hne hempty
    unfold pollActiveFilters
    have hflat : pfs.flatMap pageFilterTriplets = [] := by
      rw [List.flatMap_eq_nil_iff]; exact hempty
    have : pfs.isEmpty = false := by
      cases pfs with
      | nil => exact absurd rfl hne
      | cons a l => rfl
    simp only [this, Bool.false_eq_true, if_false, hflat]
    rfl
  · intro hop hattr hentries
    unfold mapClickExtract
    rw [hop]
    dsimp only
    rw [hattr]
    dsimp only
    rw [hentries]
    rfl

/-- Witness for C10: a selection with an unusable data point, a poll with a
non-basic filter, and a click on a feature carrying only an unmapped
attribute all leave the store unchanged. -/
theorem c10_no_write_on_empty_extraction_witness :
    handleDataSelected (some ⟨some [⟨[⟨none, some (Value.num 1)⟩], []⟩]⟩) =
        ExtractResult.noWrite ∧
      pollActiveFilters
          (some [⟨false, some ⟨some "T", some "C"⟩, some [some (Value.num 2)]⟩]) =
        ExtractResult.noWrite ∧
      mapClickExtract ["op1"]
          [⟨true, some "op1", some "NC_Permits_Cleaned",
            some [("Unmapped", some (Value.num 7))]⟩] =
        ClickResult.noWrite := by
  refine ⟨?_, ?_, ?_⟩
  · exact (c10_no_write_on_empty_extraction
      ⟨some [⟨[⟨none, some (Value.num 1)⟩], []⟩]⟩
      [⟨[⟨none, some (Value.num 1)⟩], []⟩] [] [] [] ⟨true, none, none, none⟩
      [] [] []).1 rfl (by decide) (by decide)
  · exact (c10_no_write_on_empty_extraction ⟨none⟩ []
      [⟨false, some ⟨some "T", some "C"⟩, some [some (Value.num 2)]⟩]
      [] [] ⟨true, none, none, none⟩ [] [] []).2.1 (by decide) (by decide)
  · exact (c10_no_write_on_empty_extraction ⟨none⟩ [] [] ["op1"]
      [⟨true, some "op1", some "NC_Permits_Cleaned",
        some [("Unmapped", some (Value.num 7))]⟩]
      ⟨true, some "op1", some "NC_Permits_Cleaned",
        some [("Unmapped", some (Value.num 7))]⟩
      [] [("Unmapped", some (Value.num 7))] []).2.2.1
      (by decide) (by decide) (by decide)

lemma addValueToEntry_field (f : FilterEntry) (v : Value) :
    (addValueToEntry f v).field = f.field := by
  unfold addValueToEntry
  split <;> rfl

lemma insertValueFirst_fields (fs : List FilterEntry) (field : String)
    (v : Value) :
    (insertValueFirst fs field v).map (fun e => e.field) =
      fs.map (fun e => e.field) := by
  induction fs with
  | nil => rfl
  | cons f rest ih =>
    unfold insertValueFirst
    split
    · simp [addValueToEntry_field]
    · simp [ih]

lemma addValueToEntry_nodup (f : FilterEntry) (v : Value)
    (h : f.values.Nodup) : (addValueToEntry f v).values.Nodup := by
  unfold addValueToEntry
  split
  · exact h
  · rename_i hnot
    refine List.nodup_append.mpr ⟨h, List.nodup_singleton v, ?_⟩
    intro a ha hav
    rw [List.mem_singleton] at hav
    exact hnot (hav ▸ ha)

lemma insertValueFirst_nodup (fs : List FilterEntry) (field : String)
    (v : Value) (h : ∀ e ∈ fs, e.values.Nodup) :
    ∀ e ∈ insertValueFirst fs field v, e.values.Nodup := by
  induction fs with
  | nil => intro e he; cases he
  | cons f rest ih =>
    unfold insertValueFirst
    split
    · intro e he
      rcases List.mem_cons.mp he with he | he
      · subst he
        exact addValueToEntry_nodup f v (h f (List.mem_cons_self f rest))
      · exact h e (List.mem_cons_of_mem f he)
    · intro e he
      rcases List.mem_cons.mp he with he | he
      · subst he
        exact h e (List.mem_cons_self e rest)
      · exact ih (fun e2 he2 => h e2 (List.mem_cons_of_mem f he2)) e he

lemma pushFilter_nodup (fs : List FilterEntry) (table column : String)
    (v : Value) (h : ∀ e ∈ fs, e.values.Nodup) :
    ∀ e ∈ pushFilter fs table column v, e.values.Nodup := by
  unfold pushFilter
  dsimp only
  split
  · exact insertValueFirst_nodup fs _ v h
  · intro e he
    rcases List.mem_append.mp he with he | he
    · exact h e he
    · rw [List.mem_singleton] at he
      subst he
      exact List.nodup_singleton v

lemma pushAll_nodup (ts : List (String × String × Value))
    (fs : List FilterEntry) (h : ∀ e ∈ fs, e.values.Nodup) :
    ∀ e ∈ pushAll fs ts, e.values.Nodup := by
  induction ts generalizing fs with
  | nil => exact h
  | cons t ts ih =>
    exact ih (pushFilter fs t.1 t.2.1 t.2.2)
      (pushFilter_nodup fs t.1 t.2.1 t.2.2 h)

lemma pushFilter_fields_nodup (fs : List FilterEntry) (table column : String)
    (v : Value) (h : (fs.map (fun e => e.field)).Nodup) :
    ((pushFilter fs table column v).map (fun e => e.field)).Nodup := by
  unfold pushFilter
  dsimp only
  split
  · rw [insertValueFirst_fields]
    exact h
  · rename_i hany
    rw [List.map_append]
    refine List.nodup_append.mpr ⟨h, by simp, ?_⟩
    intro a ha hav
    simp only [List.map_cons, List.map_nil, List.mem_singleton] at hav
    subst hav
    rcases List.mem_map.mp ha with ⟨e, hemem, hefield⟩
    have : fs.any (fun f =>
        decide (f.field = canonicalField FIELD_MAPPINGS table column)) = true :=
      List.any_eq_true.mpr ⟨e, hemem, by simp [hefield]⟩
    exact absurd this (by simpa using hany)

lemma pushAll_fields_nodup (ts : List (String × String × Value))
    (fs : List FilterEntry) (h : (fs.map (fun e => e.field)).Nodup) :
    ((pushAll fs ts).map (fun e => e.field)).Nodup := by
  induction ts generalizing fs with
  | nil => exact h
  | cons t ts ih =>
    exact ih (pushFilter fs t.1 t.2.1 t.2.2)
      (pushFilter_fields_nodup fs t.1 t.2.1 t.2.2 h)

lemma nodup_of_length_le_one {α : Type} (l : List α) (h : l.length ≤ 1) :
    l.Nodup := by
  cases l with
  | nil => exact List.nodup_nil
  | cons a l2 =>
    cases l2 with
    | nil => exact List.nodup_singleton a
    | cons b l3 => simp at h

lemma filterMap_length_le_filter {α β : Type} (l : List α)
    (g : α → Option β) (p : α → Bool) (hgp : ∀ a, g a ≠ none → p a = true) :
    (l.filterMap g).length ≤ (l.filter p).length := by
  induction l with
  | nil => simp
  | cons a l ih =>
    cases hg : g a with
    | none =>
      rw [List.filterMap_cons, hg]
      cases hp : p a
      · rw [List.filter_cons, hp]
        simpa using ih
      · rw [List.filter_cons, hp]
        simp only [if_true, List.length_cons]
        exact Nat.le_succ_of_le ih
    | some b =>
      rw [List.filterMap_cons, hg, List.filter_cons,
        hgp a (by rw [hg]; intro hc; cases hc)]
      simpa using ih

lemma field_mappings_matches_le_one (lt : Option String) :
    (FIELD_MAPPINGS.filter (fun m => layerOkClick m lt)).length ≤ 1 := by
  cases lt with
  | none =>
    show (List.filter _ FIELD_MAPPINGS).length ≤ 1
    rw [show FIELD_MAPPINGS.filter (fun m => layerOkClick m none) = [] from rfl]
    simp
  | some x =>
    simp only [FIELD_MAPPINGS, List.filter_cons, List.filter_nil, layerOkClick]
    by_cases h1 : "NC_Permits_Cleaned" = x <;>
      by_cases h2 : "NC_Dentists_All merged" = x <;>
        by_cases h3 : "New overlay county" = x <;>
          by_cases h4 :
            "North Carolina State and County Boundary Polygons" = x <;>
            first
              | (exact absurd (h1.trans h2.symm) (by decide))
              | (exact absurd (h1.trans h3.symm) (by decide))
              | (exact absurd (h1.trans h4.symm) (by decide))
              | (exact absurd (h2.trans h3.symm) (by decide))
              | (exact absurd (h2.trans h4.symm) (by decide))
              | (exact absurd (h3.trans h4.symm) (by decide))
              | simp [h1, h2, h3, h4]

lemma clickEntries_length_le_one (lt : Option String)
    (attrs : List (String × Option Value)) :
    (clickEntries FIELD_MAPPINGS lt attrs).length ≤ 1 := by
  refine le_trans (filterMap_length_le_filter FIELD_MAPPINGS _
    (fun m => layerOkClick m lt) ?_) (field_mappings_matches_le_one lt)
  intro m hg
  by_cases hok : layerOkClick m lt
  · exact hok
  · exfalso
    apply hg
    rw [if_neg hok]

/-- C6 — Snapshot field-uniqueness: entries accumulated through
`pushFilter` carry pairwise-distinct canonical fields; pushing a value for
an already-present field merges it into that entry instead of adding one;
map-click extraction under the shipped mapping table also yields at most
one entry per field; and every extractor write replaces the whole
snapshot. -/
theorem c6_field_uniqueness :
    ∀ (ts : List (String × String × Value)) (fs : List FilterEntry)
      (table column : String) (v : Value) (lt : Option String)
      (attrs : List (String × Option Value)) (st s : List FilterEntry),
      (((pushAll [] ts).map (fun e => e.field)).Nodup) ∧
      (canonicalField FIELD_MAPPINGS table column ∈
          fs.map (fun e => e.field) →
        (pushFilter fs table column v).map (fun e => e.field) =
          fs.map (fun e => e.field)) ∧
      (((clickEntries FIELD_MAPPINGS lt attrs).map (fun e => e.field)).Nodup) ∧
      (storeApplyExtract st (ExtractResult.write s) = s) := by
  intro ts fs table column v lt attrs st s
  refine ⟨pushAll_fields_nodup ts [] (by simp), ?_, ?_, rfl⟩
  · intro hmem
    unfold pushFilter
    rw [if_pos]
    · exact insertValueFirst_fields fs _ v
    · rcases List.mem_map.mp hmem with ⟨e, hemem, hefield⟩
      exact List.any_eq_true.mpr ⟨e, hemem, by simp [hefield]⟩
  · have h1 := clickEntries_length_le_one lt attrs
    refine nodup_of_length_le_one _ ?_
    rw [List.length_map]
    exact h1

/-- Witness for C6: merging a repeated column into one entry and a concrete
map click whose snapshot is field-unique. -/
theorem c6_field_uniqueness_witness :
    (pushFilter
        [⟨"County", some "NC_Permits", some "County Lebel",
          [Value.str "A"], Source.powerbi⟩]
        "NC_Permits" "County Lebel" (Value.str "B")).map
        (fun e => e.field) =
      ([⟨"County", some "NC_Permits", some "County Lebel",
        [Value.str "A"], Source.powerbi⟩] : List FilterEntry).map
        (fun e => e.field) := by
  exact (c6_field_uniqueness [] [⟨"County", some "NC_Permits",
    some "County Lebel", [Value.str "A"], Source.powerbi⟩]
    "NC_Permits" "County Lebel" (Value.str "B") none [] [] []).2.1
    (by decide)

/-- C7 — Mapping-fallback asymmetry: a report-side triplet with no matching
mapping still produces an entry, with the raw column name as canonical
field; a map-side attribute with no matching mapping never produces an
entry — every click entry comes from a row of the mapping table. -/
theorem c7_mapping_fallback_asymmetry :
    ∀ (fs : List FilterEntry) (table column : String) (v : Value)
      (lt : Option String) (attrs : List (String × Option Value))
      (e : FilterEntry),
      (findColumnMapping FIELD_MAPPINGS table column = none →
        (∀ f ∈ fs, ¬ f.field = column) →
        pushFilter fs table column v =
          fs ++ [⟨column, some table, some column, [v], Source.powerbi⟩]) ∧
      (e ∈ clickEntries FIELD_MAPPINGS lt attrs →
        ∃ m ∈ FIELD_MAPPINGS, layerOkClick m lt = true ∧
          ∃ v2, e = ⟨m.arcgisField, some m.powerbiTable,
              some m.powerbiColumn, [v2], Source.arcgis⟩ ∧
            attrValue attrs m.arcgisField = some (some v2)) := by
  intro fs table column v lt attrs e
  constructor
  · intro hnomap hnofield
    have hcf : canonicalField FIELD_MAPPINGS table column = column := by
      unfold canonicalField
      rw [hnomap]
    unfold pushFilter
    rw [hcf]
    rw [if_neg]
    intro hany
    rcases List.any_eq_true.mp hany with ⟨f, hfmem, hfp⟩
    exact hnofield f hfmem (by simpa using hfp)
  · intro h
    rcases List.mem_filterMap.mp h with ⟨m, hm, hsome⟩
    by_cases hok : layerOkClick m lt = true
    · rw [if_pos hok] at hsome
      cases hav : attrValue attrs m.arcgisField with
      | none => rw [hav] at hsome; cases hsome
      | some ov =>
        cases ov with
        | none => rw [hav] at hsome; cases hsome
        | some v2 =>
          rw [hav] at hsome
          refine ⟨m, hm, hok, v2, ?_, hav⟩
          cases hsome
          rfl
    · rw [if_neg hok] at hsome
      cases hsome

/-- Witness for C7: the unmapped report column "City" passes through as the
canonical field, and a click entry for the County mapping exists. -/
theorem c7_mapping_fallback_asymmetry_witness :
    pushFilter [] "SomeTable" "City" (Value.num 3) =
        [⟨"City", some "SomeTable", some "City", [Value.num 3],
          Source.powerbi⟩] ∧
      ∃ m ∈ FIELD_MAPPINGS, layerOkClick m (some "NC_Permits_Cleaned") = true ∧
        ∃ v2, (⟨"County", some "NC_Permits", some "County Lebel",
            [Value.str "Forsyth"], Source.arcgis⟩ : FilterEntry) =
            ⟨m.arcgisField, some m.powerbiTable, some m.powerbiColumn,
              [v2], Source.arcgis⟩ ∧
          attrValue [("County", some (Value.str "Forsyth"))] m.arcgisField =
            some (some v2) := by
  constructor
  · exact (c7_mapping_fallback_asymmetry [] "SomeTable" "City" (Value.num 3)
      none [] ⟨"x", none, none, [], Source.arcgis⟩).1 (by rfl) (by simp)
  · exact (c7_mapping_fallback_asymmetry [] "SomeTable" "City" (Value.num 3)
      (some "NC_Permits_Cleaned") [("County", some (Value.str "Forsyth"))]
      ⟨"County", some "NC_Permits", some "County Lebel",
        [Value.str "Forsyth"], Source.arcgis⟩).2 (by decide)

lemma entryClause_single (lt : String) (e : FilterEntry) (m : FieldMapping)
    (v : Value) (hfind : findLayerMapping FIELD_MAPPINGS lt e = some m)
    (hvals : e.values = [v]) :
    entryClause FIELD_MAPPINGS lt e =
      some (renderEqClause m.arcgisField (applyTransform m v)) := by
  unfold entryClause
  rw [hfind]
  dsimp only
  rw [hvals, List.map_cons, List.map_nil]

lemma buildWhereClause_single (lt : String) (e : FilterEntry) (c : String)
    (h : entryClause FIELD_MAPPINGS lt e = some c) :
    buildWhereClause FIELD_MAPPINGS lt [e] = some c := by
  unfold buildWhereClause
  rw [List.filterMap_cons, h]
  rfl

lemma buildWhereClause_pair (lt : String) (e1 e2 : FilterEntry)
    (c1 c2 : String) (h1 : entryClause FIELD_MAPPINGS lt e1 = some c1)
    (h2 : entryClause FIELD_MAPPINGS lt e2 = some c2) :
    buildWhereClause FIELD_MAPPINGS lt [e1, e2] =
      some (c1 ++ " AND " ++ c2) := by
  unfold buildWhereClause
  rw [List.filterMap_cons, h1]
  rw [show List.filterMap (entryClause FIELD_MAPPINGS lt) [e2] =
    [c2] by rw [List.filterMap_cons, h2]; rfl]
  rfl

/-- C2 — Predicate building: a single-value entry with a matching mapping
yields an equality clause — quoted with interior quotes doubled when the
transformed value is a string, bare when numeric; an entry with more than
one value yields an `IN (...)` list over its transformed values, and the
values accumulated per entry by the extractor are duplicate-free; clauses
of several entries are joined with AND. -/
theorem c2_predicate_building :
    ∀ (lt : String) (e e1 e2 : FilterEntry) (m : FieldMapping) (v : Value)
      (n : Int) (s1 c1 c2 : String) (ts : List (String × String × Value)),
      (findLayerMapping FIELD_MAPPINGS lt e = some m → e.values = [v] →
        applyTransform m v = Value.str s1 →
        buildWhereClause FIELD_MAPPINGS lt [e] =
          some (m.arcgisField ++ " = " ++ sq ++ escapeQuotes s1 ++ sq)) ∧
      (findLayerMapping FIELD_MAPPINGS lt e = some m → e.values = [v] →
        applyTransform m v = Value.num n →
        buildWhereClause FIELD_MAPPINGS lt [e] =
          some (m.arcgisField ++ " = " ++ toString n)) ∧
      (findLayerMapping FIELD_MAPPINGS lt e = some m → 1 < e.values.length →
        buildWhereClause FIELD_MAPPINGS lt [e] =
          some (m.arcgisField ++ " IN (" ++
            String.intercalate ", "
              ((e.values.map (applyTransform m)).map renderInItem) ++ ")")) ∧
      (∀ e3 ∈ pushAll [] ts, e3.values.Nodup) ∧
      (entryClause FIELD_MAPPINGS lt e1 = some c1 →
        entryClause FIELD_MAPPINGS lt e2 = some c2 →
        buildWhereClause FIELD_MAPPINGS lt [e1, e2] =
          some (c1 ++ " AND " ++ c2)) := by
  intro lt e e1 e2 m v n s1 c1 c2 ts
  refine ⟨?_, ?_, ?_, pushAll_nodup ts [] (by simp), buildWhereClause_pair lt e1 e2 c1 c2⟩
  · intro hfind hvals htr
    have := buildWhereClause_single lt e _ (entryClause_single lt e m v hfind hvals)
    rw [htr] at this
    exact this
  · intro hfind hvals htr
    have := buildWhereClause_single lt e _ (entryClause_single lt e m v hfind hvals)
    rw [htr] at this
    exact this
  · intro hfind hlen
    rcases hv : e.values with _ | ⟨v1, _ | ⟨v2, vs⟩⟩
    · rw [hv] at hlen; simp at hlen
    · rw [hv] at hlen; simp at hlen
    · refine buildWhereClause_single lt e _ ?_
      unfold entryClause
      rw [hfind]
      dsimp only
      rw [hv, List.map_cons, List.map_cons]

/-- Witness for C2: the shipped County mapping with the emoji-prefixed
slicer value, a numeric value, a two-value IN clause, extractor
duplicate-suppression, and an AND join. -/
theorem c2_predicate_building_witness :
    buildWhereClause FIELD_MAPPINGS "NC_Permits_Cleaned"
        [⟨"County", some "NC_Permits", some "County Lebel",
          [Value.str (String.mk [Char.ofNat 0x1F4CD, ' ', ' '] ++ "Forsyth")],
          Source.powerbi⟩] =
      some ("County = " ++ sq ++ escapeQuotes "Forsyth" ++ sq) ∧
    buildWhereClause FIELD_MAPPINGS "NC_Permits_Cleaned"
        [⟨"County", some "NC_Permits", some "County Lebel",
          [Value.num 7], Source.powerbi⟩] =
      some ("County = " ++ toString (7 : Int)) ∧
    buildWhereClause FIELD_MAPPINGS "NC_Permits_Cleaned"
        [⟨"County", some "NC_Permits", some "County Lebel",
          [Value.str "Forsyth", Value.str "Wake"], Source.powerbi⟩] =
      some ("County IN (" ++
        String.intercalate ", "
          (([Value.str "Forsyth", Value.str "Wake"].map
            (applyTransform ⟨"NC_Permits", "County Lebel",
              some "NC_Permits_Cleaned", "County", some stripEmojiVal⟩)).map
              renderInItem) ++ ")") ∧
    (∀ e3 ∈ pushAll []
        [("NC_Permits", "County Lebel", Value.str "Forsyth"),
          ("NC_Permits", "County Lebel", Value.str "Forsyth"),
          ("NC_Permits", "County Lebel", Value.str "Wake")],
      e3.values.Nodup) ∧
    buildWhereClause FIELD_MAPPINGS "NC_Permits_Cleaned"
        [⟨"County", some "NC_Permits", some "County Lebel",
          [Value.str "Forsyth"], Source.powerbi⟩,
          ⟨"County", some "NC_Permits", some "County Lebel",
            [Value.num 2], Source.powerbi⟩] =
      some (("County = " ++ sq ++ "Forsyth" ++ sq) ++ " AND " ++
        ("County = " ++ toString (2 : Int))) := by
  refine ⟨?_, ?_, ?_, ?_, ?_⟩
  · exact (c2_predicate_building "NC_Permits_Cleaned"
      ⟨"County", some "NC_Permits", some "County Lebel",
        [Value.str (String.mk [Char.ofNat 0x1F4CD, ' ', ' '] ++ "Forsyth")],
        Source.powerbi⟩
      ⟨"", none, none, [], Source.powerbi⟩ ⟨"", none, none, [], Source.powerbi⟩
      ⟨"NC_Permits", "County Lebel", some "NC_Permits_Cleaned", "County",
        some stripEmojiVal⟩
      (Value.str (String.mk [Char.ofNat 0x1F4CD, ' ', ' '] ++ "Forsyth"))
      0 "Forsyth" "" "" []).1 rfl rfl rfl
  · exact (c2_predicate_building "NC_Permits_Cleaned"
      ⟨"County", some "NC_Permits", some "County Lebel",
        [Value.num 7], Source.powerbi⟩
      ⟨"", none, none, [], Source.powerbi⟩ ⟨"", none, none, [], Source.powerbi⟩
      ⟨"NC_Permits", "County Lebel", some "NC_Permits_Cleaned", "County",
        some stripEmojiVal⟩
      (Value.num 7) 7 "" "" "" []).2.1 rfl rfl rfl
  · exact (c2_predicate_building "NC_Permits_Cleaned"
      ⟨"County", some "NC_Permits", some "County Lebel",
        [Value.str "Forsyth", Value.str "Wake"], Source.powerbi⟩
      ⟨"", none, none, [], Source.powerbi⟩ ⟨"", none, none, [], Source.powerbi⟩
      ⟨"NC_Permits", "County Lebel", some "NC_Permits_Cleaned", "County",
        some stripEmojiVal⟩
      (Value.num 0) 0 "" "" "" []).2.2.1 rfl (by decide)
  · exact fun e3 he3 => (c2_predicate_building "x"
      ⟨"", none, none, [], Source.powerbi⟩ ⟨"", none, none, [], Source.powerbi⟩
      ⟨"", none, none, [], Source.powerbi⟩
      ⟨"NC_Permits", "County Lebel", some "NC_Permits_Cleaned", "County",
        some stripEmojiVal⟩
      (Value.num 0) 0 "" "" ""
      [("NC_Permits", "County Lebel", Value.str "Forsyth"),
        ("NC_Permits", "County Lebel", Value.str "Forsyth"),
        ("NC_Permits", "County Lebel", Value.str "Wake")]).2.2.2.1 e3 he3
  · exact (c2_predicate_building "NC_Permits_Cleaned"
      ⟨"", none, none, [], Source.powerbi⟩
      ⟨"County", some "NC_Permits", some "County Lebel",
        [Value.str "Forsyth"], Source.powerbi⟩
      ⟨"County", some "NC_Permits", some "County Lebel",
        [Value.num 2], Source.powerbi⟩
      ⟨"NC_Permits", "County Lebel", some "NC_Permits_Cleaned", "County",
        some stripEmojiVal⟩
      (Value.num 0) 0 ""
      ("County = " ++ sq ++ "Forsyth" ++ sq)
      ("County = " ++ toString (2 : Int)) []).2.2.2.2 rfl rfl

lemma toPbiBasicFilter_values (f : FilterEntry) (pf : PbiBasicFilter)
    (h : toPbiBasicFilter f = some pf) : pf.values = f.values := by
  unfold toPbiBasicFilter at h
  cases ht : f.powerbiTable with
  | none => rw [ht] at h; cases h
  | some t =>
    cases hc : f.powerbiColumn with
    | none => rw [ht, hc] at h; cases h
    | some c =>
      rw [ht, hc] at h
      dsimp only at h
      by_cases he : t = "" ∨ c = ""
      · rw [if_pos he] at h; cases h
      · rw [if_neg he] at h
        cases h
        rfl

/-- C5 (amended) — The transform is applied in the report→map direction
only: the value of a mapped entry passes through `applyTransform` before it
enters the layer predicate, while in the map→report direction the basic
filter sent to the report carries the raw entry values unchanged. -/
theorem c5_transform_amended :
    ∀ (lt : String) (e : FilterEntry) (m : FieldMapping) (v : Value)
      (s : List FilterEntry) (pfs : List PbiBasicFilter)
      (pf : PbiBasicFilter),
      (findLayerMapping FIELD_MAPPINGS lt e = some m → e.values = [v] →
        entryClause FIELD_MAPPINGS lt e =
          some (renderEqClause m.arcgisField (applyTransform m v))) ∧
      (reportApplierCommands s = [ReportCommand.setFilters pfs] →
        pf ∈ pfs →
        ∃ f ∈ s, f.source = Source.arcgis ∧ pf.values = f.values) := by
  intro lt e m v s pfs pf
  constructor
  · exact entryClause_single lt e m v
  · intro hcmd hpf
    unfold reportApplierCommands at hcmd
    cases hne :
        (s.filter (fun f => decide (f.source = Source.arcgis))).isEmpty with
    | true => rw [if_pos hne] at hcmd; cases hcmd
    | false =>
      rw [if_neg (by simp [hne])] at hcmd
      dsimp only at hcmd
      cases hpe : ((s.filter
          (fun f => decide (f.source = Source.arcgis))).filterMap
            toPbiBasicFilter).isEmpty with
      | true => rw [if_pos hpe] at hcmd; cases hcmd
      | false =>
        rw [if_neg (by simp [hpe])] at hcmd
        have hlist := (ReportCommand.setFilters.injEq _ _).mp
          (List.cons.injEq _ _ _ _ |>.mp hcmd).1
        rw [← hlist] at hpf
        rcases List.mem_filterMap.mp hpf with ⟨f, hfmem, hfsome⟩
        refine ⟨f, (List.mem_filter.mp hfmem).1, ?_,
          toPbiBasicFilter_values f pf hfsome⟩
        have := (List.mem_filter.mp hfmem).2
        simpa using this

/-- C5 (counterexample) — the claim as stated is false in the map→report
direction: a click on a feature whose County value still carries the emoji
prefix produces an entry with the raw value, and the basic filter issued to
the report widget carries that raw, untransformed value even though the
transform of the mapping would have changed it. -/
theorem c5_transform_counterexample :
    mapClickExtract ["op1"]
        [⟨true, some "op1", some "NC_Permits_Cleaned",
          some [("County",
            some (Value.str (String.mk [Char.ofNat 0x1F4CD] ++ "X")))]⟩] =
      ClickResult.write
        [⟨"County", some "NC_Permits", some "County Lebel",
          [Value.str (String.mk [Char.ofNat 0x1F4CD] ++ "X")],
          Source.arcgis⟩] ∧
    reportApplierCommands
        [⟨"County", some "NC_Permits", some "County Lebel",
          [Value.str (String.mk [Char.ofNat 0x1F4CD] ++ "X")],
          Source.arcgis⟩] =
      [ReportCommand.setFilters
        [⟨"NC_Permits", "County Lebel", "In",
          [Value.str (String.mk [Char.ofNat 0x1F4CD] ++ "X")]⟩]] ∧
    stripEmojiVal (Value.str (String.mk [Char.ofNat 0x1F4CD] ++ "X")) ≠
      Value.str (String.mk [Char.ofNat 0x1F4CD] ++ "X") := by
  refine ⟨by decide, by decide, by decide⟩

/-- Witness for the amended C5 theorem: the County mapping transform is
applied on the report→map side, and the raw map-side value flows through
to the report-side basic filter. -/
theorem c5_transform_amended_witness :
    entryClause FIELD_MAPPINGS "NC_Permits_Cleaned"
        ⟨"County", some "NC_Permits", some "County Lebel",
          [Value.str (String.mk [Char.ofNat 0x1F4CD] ++ "X")],
          Source.powerbi⟩ =
      some (renderEqClause "County"
        (applyTransform
          ⟨"NC_Permits", "County Lebel", some "NC_Permits_Cleaned", "County",
            some stripEmojiVal⟩
          (Value.str (String.mk [Char.ofNat 0x1F4CD] ++ "X")))) ∧
    ∃ f ∈ ([⟨"County", some "NC_Permits", some "County Lebel",
        [Value.str "A"], Source.arcgis⟩] : List FilterEntry),
      f.source = Source.arcgis ∧
        (⟨"NC_Permits", "County Lebel", "In",
          [Value.str "A"]⟩ : PbiBasicFilter).values = f.values := by
  constructor
  · exact (c5_transform_amended "NC_Permits_Cleaned"
      ⟨"County", some "NC_Permits", some "County Lebel",
        [Value.str (String.mk [Char.ofNat 0x1F4CD] ++ "X")],
        Source.powerbi⟩
      ⟨"NC_Permits", "County Lebel", some "NC_Permits_Cleaned", "County",
        some stripEmojiVal⟩
      (Value.str (String.mk [Char.ofNat 0x1F4CD] ++ "X"))
      [] [] ⟨"", "", "", []⟩).1 rfl rfl
  · exact (c5_transform_amended "x" ⟨"", none, none, [], Source.powerbi⟩
      ⟨"NC_Permits", "County Lebel", some "NC_Permits_Cleaned", "County",
        some stripEmojiVal⟩
      (Value.num 0)
      [⟨"County", some "NC_Permits", some "County Lebel",
        [Value.str "A"], Source.arcgis⟩]
      [⟨"NC_Permits", "County Lebel", "In", [Value.str "A"]⟩]
      ⟨"NC_Permits", "County Lebel", "In", [Value.str "A"]⟩).2
      (by decide) (by decide)

lemma unionExtents_acc_none (feats : List Feature)
    (h : ∀ f ∈ feats, featureExtent f = none) :
    feats.foldl
        (fun acc f =>
          match f.geometry with
          | none => acc
          | some g =>
            match g.extent with
            | none => acc
            | some e =>
              match acc with
              | none => some e
              | some a => some (a.union e))
        none = none := by
  induction feats with
  | nil => rfl
  | cons f fs ih =>
    have hf := h f (List.mem_cons_self f fs)
    unfold featureExtent at hf
    rw [List.foldl_cons]
    cases hg : f.geometry with
    | none =>
      exact ih (fun f2 hf2 => h f2 (List.mem_cons_of_mem f hf2))
    | some g =>
      rw [hg] at hf
      dsimp only at hf
      dsimp only
      rw [hf]
      exact ih (fun f2 hf2 => h f2 (List.mem_cons_of_mem f hf2))

lemma unionExtents_none (feats : List Feature)
    (h : ∀ f ∈ feats, featureExtent f = none) : unionExtents feats = none :=
  unionExtents_acc_none feats h

/-- C8 — Zoom policy: the filterable layers are scanned in order; the first
layer whose filtered query yields at least one feature alone determines the
zoom/highlight commands and ends the scan (later layers are not queried); a
failed or empty query just moves the scan on; a winner without geometry
produces no zoom command; when every query fails or is empty no zoom
command is issued at all; and the per-layer predicates are applied
independently of the zoom outcome. -/
theorem c8_zoom_policy :
    ∀ (env : MapEnv) (filters : List FilterEntry) (fl : FeatureLayer)
      (rest layers : List FeatureLayer) (w : String) (feats : List Feature)
      (e0 : Option Extent) (s : List FilterEntry),
      (buildWhereClause FIELD_MAPPINGS fl.title filters = some w →
        env.queryFeatures fl w = Except.ok feats → feats ≠ [] →
        zoomScan env filters (fl :: rest) =
          (winnerCommands env fl feats, [fl])) ∧
      (buildWhereClause FIELD_MAPPINGS fl.title filters = some w →
        (env.queryFeatures fl w = Except.error () ∨
          env.queryFeatures fl w = Except.ok []) →
        zoomScan env filters (fl :: rest) =
          ((zoomScan env filters rest).1,
            fl :: (zoomScan env filters rest).2)) ∧
      ((∀ f ∈ feats, featureExtent f = none) →
        ∀ e, MapCommand.goTo e ∉ winnerCommands env fl feats) ∧
      ((∀ l ∈ layers, ∀ w2,
          buildWhereClause FIELD_MAPPINGS l.title filters = some w2 →
          env.queryFeatures l w2 = Except.error () ∨
            env.queryFeatures l w2 = Except.ok []) →
        (zoomScan env filters layers).1 = []) ∧
      ((s.filter (fun f => decide (f.source = Source.powerbi))).isEmpty =
          false →
        fl ∈ layers → isVisualizationLayer fl = false →
        MapCommand.setLayerFilter fl
            (buildWhereClause FIELD_MAPPINGS fl.title
              (s.filter (fun f => decide (f.source = Source.powerbi)))) ∈
          mapApplierCommands env layers e0 s) := by
  intro env filters fl rest layers w feats e0 s
  refine ⟨?_, ?_, ?_, ?_, ?_⟩
  · exact zoomScan_cons_winner env filters fl rest w feats
  · intro hb hq
    rcases hq with hq | hq
    · exact zoomScan_cons_error env filters fl rest w hb hq
    · exact zoomScan_cons_ok_empty env filters fl rest w hb hq
  · intro hgeo e
    unfold winnerCommands
    rw [unionExtents_none feats hgeo]
    cases env.canHighlight fl <;> simp
  · intro hall
    induction layers with
    | nil => rfl
    | cons l ls ih =>
      have hrec := ih (fun l2 hl2 w2 hb2 =>
        hall l2 (List.mem_cons_of_mem l hl2) w2 hb2)
      cases hb : buildWhereClause FIELD_MAPPINGS l.title filters with
      | none => rw [zoomScan_cons_skip env filters l ls hb]; exact hrec
      | some w2 =>
        rcases hall l (List.mem_cons_self l ls) w2 hb with hq | hq
        · rw [zoomScan_cons_error env filters l ls w2 hb hq]; exact hrec
        · rw [zoomScan_cons_ok_empty env filters l ls w2 hb hq]; exact hrec
  · intro hne hmem hviz
    rw [mapApplierCommands_nonempty env layers e0 s hne]
    refine List.mem_cons_of_mem _ (List.mem_append_left _ ?_)
    exact List.mem_map_of_mem _
      (List.mem_filter.mpr ⟨hmem, by simp [hviz]⟩)

/-- Witness for C8 at concrete layers, queries and snapshots: a winning
first layer ends the scan, an erroring first layer hands over to the rest,
a geometry-less winner yields no zoom, an all-failing scan yields no zoom
commands, and the predicate command is present regardless. -/
theorem c8_zoom_policy_witness :
    zoomScan ⟨fun _ _ => Except.ok [⟨some ⟨some ⟨1, 1, 2, 2⟩⟩⟩],
          fun _ => true⟩
        [⟨"County", some "NC_Permits", some "County Lebel",
          [Value.str "Forsyth"], Source.powerbi⟩]
        [⟨"NC_Permits_Cleaned", none, false⟩,
          ⟨"New overlay county", none, false⟩] =
      (winnerCommands ⟨fun _ _ => Except.ok [⟨some ⟨some ⟨1, 1, 2, 2⟩⟩⟩],
          fun _ => true⟩
        ⟨"NC_Permits_Cleaned", none, false⟩
        [⟨some ⟨some ⟨1, 1, 2, 2⟩⟩⟩],
        [⟨"NC_Permits_Cleaned", none, false⟩]) ∧
    zoomScan ⟨fun _ _ => Except.error (), fun _ => true⟩
        [⟨"County", some "NC_Permits", some "County Lebel",
          [Value.str "Forsyth"], Source.powerbi⟩]
        [⟨"NC_Permits_Cleaned", none, false⟩] =
      ((zoomScan ⟨fun _ _ => Except.error (), fun _ => true⟩
          [⟨"County", some "NC_Permits", some "County Lebel",
            [Value.str "Forsyth"], Source.powerbi⟩] []).1,
        ⟨"NC_Permits_Cleaned", none, false⟩ ::
          (zoomScan ⟨fun _ _ => Except.error (), fun _ => true⟩
            [⟨"County", some "NC_Permits", some "County Lebel",
              [Value.str "Forsyth"], Source.powerbi⟩] []).2) ∧
    MapCommand.goTo ⟨0, 0, 1, 1⟩ ∉
      winnerCommands ⟨fun _ _ => Except.ok [⟨some ⟨some ⟨1, 1, 2, 2⟩⟩⟩],
          fun _ => true⟩
        ⟨"NC_Permits_Cleaned", none, false⟩ [⟨none⟩, ⟨some ⟨none⟩⟩] ∧
    (zoomScan ⟨fun _ _ => Except.error (), fun _ => true⟩
        [⟨"County", some "NC_Permits", some "County Lebel",
          [Value.str "Forsyth"], Source.powerbi⟩]
        [⟨"NC_Permits_Cleaned", none, false⟩,
          ⟨"New overlay county", none, false⟩]).1 = [] ∧
    MapCommand.setLayerFilter ⟨"NC_Permits_Cleaned", none, false⟩
        (buildWhereClause FIELD_MAPPINGS "NC_Permits_Cleaned"
          ([⟨"County", some "NC_Permits", some "County Lebel",
            [Value.str "Forsyth"], Source.powerbi⟩].filter
              (fun f => decide (f.source = Source.powerbi)))) ∈
      mapApplierCommands ⟨fun _ _ => Except.error (), fun _ => true⟩
        [⟨"NC_Permits_Cleaned", none, false⟩] none
        [⟨"County", some "NC_Permits", some "County Lebel",
          [Value.str "Forsyth"], Source.powerbi⟩] := by
  refine ⟨?_, ?_, ?_, ?_, ?_⟩
  · exact (c8_zoom_policy ⟨fun _ _ => Except.ok [⟨some ⟨some ⟨1, 1, 2, 2⟩⟩⟩],
        fun _ => true⟩
      [⟨"County", some "NC_Permits", some "County Lebel",
        [Value.str "Forsyth"], Source.powerbi⟩]
      ⟨"NC_Permits_Cleaned", none, false⟩
      [⟨"New overlay county", none, false⟩] []
      ("County = " ++ sq ++ "Forsyth" ++ sq)
      [⟨some ⟨some ⟨1, 1, 2, 2⟩⟩⟩] none []).1 rfl rfl (by decide)
  · exact (c8_zoom_policy ⟨fun _ _ => Except.error (), fun _ => true⟩
      [⟨"County", some "NC_Permits", some "County Lebel",
        [Value.str "Forsyth"], Source.powerbi⟩]
      ⟨"NC_Permits_Cleaned", none, false⟩ [] []
      ("County = " ++ sq ++ "Forsyth" ++ sq) [] none []).2.1 rfl (Or.inl rfl)
  · exact (c8_zoom_policy ⟨fun _ _ => Except.ok [⟨some ⟨some ⟨1, 1, 2, 2⟩⟩⟩],
        fun _ => true⟩ []
      ⟨"NC_Permits_Cleaned", none, false⟩ [] [] ""
      [⟨none⟩, ⟨some ⟨none⟩⟩] none []).2.2.1 (by decide) ⟨0, 0, 1, 1⟩
  · exact (c8_zoom_policy ⟨fun _ _ => Except.error (), fun _ => true⟩
      [⟨"County", some "NC_Permits", some "County Lebel",
        [Value.str "Forsyth"], Source.powerbi⟩]
      ⟨"x", none, false⟩ []
      [⟨"NC_Permits_Cleaned", none, false⟩,
        ⟨"New overlay county", none, false⟩] "" [] none []).2.2.2.1
      (fun l hl w2 hb2 => Or.inl rfl)
  · exact (c8_zoom_policy ⟨fun _ _ => Except.error (), fun _ => true⟩ []
      ⟨"NC_Permits_Cleaned", none, false⟩ []
      [⟨"NC_Permits_Cleaned", none, false⟩] "" [] none
      [⟨"County", some "NC_Permits", some "County Lebel",
        [Value.str "Forsyth"], Source.powerbi⟩]).2.2.2.2
      (by decide) (by decide) (by decide)

end FilterSync
